import Mathlib

/-
  Verification development for the kiichain price-feeder.

  This file gives a shallow embedding of the parts of the repository that the
  verified properties talk about:

  * `Dec` — the 18-decimal fixed-point arithmetic of `cosmossdk.io/math`
    (`LegacyDec`): an integer scaled by `10^18`, with the library's
    chop-and-round (banker's rounding) semantics for `Mul` and `Quo` and the
    truncating `QuoInt64`.  All prices and volumes in the repository use this
    type.
  * the account-sequence bookkeeping of `oracle/client` (`AccountInfo`,
    `ObtainAccountInfo`, `BroadcastTx`),
  * the two block-height caches of `oracle` (`ParamCache`, `JailCache`),
  * the height tracker of `oracle/client` (`HeightUpdater.subscribe`),
  * the address handling of `NewOracleClient`,
  * and — modelled from the specification where the implementation file is
    absent from the source tree — the aggregation pipeline (`ComputeVWAP`,
    `StandardDeviation`, the deviation filters, the vote-payload
    serialization and the voting tick).

  External collaborators (keyring, RPC transport, gRPC queries, signing) are
  modelled as inputs: a function parameter or an explicit outcome value.
-/

namespace PriceFeeder

/-! ## 18-decimal fixed point (cosmossdk.io/math `LegacyDec`)

A `LegacyDec` is a big integer denoting `val / 10^18`.  `Add`/`Sub` are exact;
`Mul` multiplies the raw integers and chops `10^18` with banker's rounding;
`Quo` multiplies the numerator by `10^36`, divides truncating toward zero, and
chops `10^18` with banker's rounding; `QuoInt64` divides truncating toward
zero.  This mirrors `chopPrecisionAndRound` of the cosmos library. -/

def decUnit : Nat := 10 ^ 18

/-- `chopPrecisionAndRound` on a nonnegative raw integer: remove a factor of
`10^18`, rounding half to even (banker's rounding). -/
def chopRoundNat (d : Nat) : Nat :=
  let quo := d / decUnit
  let rem := d % decUnit
  if rem = 0 then quo
  else if rem < 5 * 10 ^ 17 then quo
  else if 5 * 10 ^ 17 < rem then quo + 1
  else if quo % 2 = 0 then quo else quo + 1

/-- `chopPrecisionAndRound` on a raw integer; the library recurses on the
negation for negative input, so the magnitude is rounded. -/
def chopRound (d : Int) : Int :=
  if d < 0 then -(chopRoundNat d.natAbs : Int) else (chopRoundNat d.natAbs : Int)

/-- Division truncating toward zero (Go `big.Int.Quo`). -/
def tquo (a b : Int) : Int :=
  if (0 ≤ a) = (0 ≤ b) then (a.natAbs / b.natAbs : Nat)
  else -((a.natAbs / b.natAbs : Nat) : Int)

/-- An 18-decimal fixed-point number: the value is `val / 10^18`. -/
structure Dec where
  val : Int
deriving DecidableEq, Repr

def Dec.zero : Dec := ⟨0⟩

def Dec.one : Dec := ⟨(decUnit : Int)⟩

/-- `LegacyNewDec`: an integer as a `Dec`. -/
def Dec.ofInt (n : Int) : Dec := ⟨n * (decUnit : Int)⟩

def Dec.add (a b : Dec) : Dec := ⟨a.val + b.val⟩

def Dec.sub (a b : Dec) : Dec := ⟨a.val - b.val⟩

/-- `LegacyDec.Mul`: multiply raw integers, chop `10^18` with rounding. -/
def Dec.mul (a b : Dec) : Dec := ⟨chopRound (a.val * b.val)⟩

/-- `LegacyDec.Quo`: scale the numerator by `10^36`, truncate-divide, chop
`10^18` with rounding. -/
def Dec.quo (a b : Dec) : Dec :=
  ⟨chopRound (tquo (a.val * (decUnit : Int) * (decUnit : Int)) b.val)⟩

/-- `LegacyDec.QuoInt64`: truncating division by an integer. -/
def Dec.quoInt (a : Dec) (n : Int) : Dec := ⟨tquo a.val n⟩

def Dec.le (a b : Dec) : Bool := decide (a.val ≤ b.val)

/-- `isBetween` of `oracle/filter.go`: `mean - margin ≤ p ≤ mean + margin`. -/
def isBetween (p mean margin : Dec) : Bool :=
  (mean.sub margin).le p && p.le (mean.add margin)

/-- One Newton step loop of `LegacyDec.ApproxRoot` for `root = 2`:
`guess.Power(1)` is `guess`, so each step is
`guess := guess + ((d/guess - guess) / 2)` with the library's `Quo` and
`QuoInt64`; the loop stops when `|delta| ≤ 10^-18` or the fuel
(`maxApproxRootIterations`) runs out. -/
def approxSqrtLoop (d : Dec) : Nat → Dec → Dec → Dec
  | 0, guess, _ => guess
  | fuel + 1, guess, delta =>
    if delta.val.natAbs ≤ 1 then guess
    else
      let prev := if guess.val = 0 then (⟨1⟩ : Dec) else guess
      let step := ((d.quo prev).sub guess).quoInt 2
      approxSqrtLoop d fuel (guess.add step) step

/-- `LegacyDec.ApproxSqrt` (`ApproxRoot 2`): Newton iteration from guess `1`
with at most 100 iterations; `0` and `1` are returned unchanged, negative
input takes the negated square root of the magnitude. -/
def Dec.approxSqrt (d : Dec) : Dec :=
  if d.val = 0 ∨ d = Dec.one then d
  else if d.val < 0 then ⟨-(approxSqrtLoop ⟨-d.val⟩ 100 Dec.one Dec.one).val⟩
  else approxSqrtLoop d 100 Dec.one Dec.one

/-! ## Account sequence bookkeeping (`oracle/client/codec.go`) -/

/-- `AccountInfo` of `oracle/client/codec.go`. -/
structure AccountInfo where
  accountNumber : Nat
  accountSequence : Nat
  shouldResetSequence : Bool
deriving DecidableEq, Repr

/-- `NewAccountInfo`: the zero value. -/
def NewAccountInfo : AccountInfo :=
  { accountNumber := 0, accountSequence := 0, shouldResetSequence := false }

/-- The chain's view of the feeder account, as returned by
`AccountRetriever.GetAccountNumberSequence`. -/
structure ChainAccount where
  accountNumber : Nat
  sequence : Nat
deriving DecidableEq, Repr

/-- `AccountInfo.ObtainAccountInfo` (success path of the chain query): when the
local sequence is `0` or the reset flag is set, adopt the chain's
`(accountNumber, sequence)` and clear the flag; then place the stored numbers
on the transaction factory.  Returns the updated info, the
`(accountNumber, sequence)` put on the factory, and whether the chain was
queried. -/
def obtainAccountInfo (chain : ChainAccount) (a : AccountInfo) :
    AccountInfo × (Nat × Nat) × Bool :=
  if a.accountSequence = 0 ∨ a.shouldResetSequence then
    let a2 : AccountInfo :=
      { accountNumber := chain.accountNumber
        accountSequence := chain.sequence
        shouldResetSequence := false }
    (a2, (a2.accountNumber, a2.accountSequence), true)
  else
    (a, (a.accountNumber, a.accountSequence), false)

/-- The node's reply to `clientCtx.BroadcastTx`: an optional `TxResponse`
carrying an ABCI code, plus a transport-level error flag. -/
structure NodeResponse where
  code : Nat
deriving DecidableEq, Repr

structure BroadcastOutcome where
  resp : Option NodeResponse
  err : Bool
deriving DecidableEq, Repr

/-- What one `OracleClient.BroadcastTx` call did. -/
structure BroadcastResult where
  usedSequence : Nat
  queriedChain : Bool
  isError : Bool
  finalInfo : AccountInfo
deriving DecidableEq, Repr

/-- `OracleClient.BroadcastTx` of `oracle/client/client.go` (factory creation,
signing and encoding assumed to succeed; the node's reply is the
`outcome` input).  The function allocates a fresh `AccountInfo` via
`NewAccountInfo`, obtains the account numbers, broadcasts, and then:

* non-zero response code other than `sdkerrors.ErrAlreadyExists.ABCICode()`
  (the `alreadyExistsCode` parameter): return the response with an error;
* transport error: set `ShouldResetSequence` and return the error;
* otherwise: increment the local sequence.

`finalInfo` is the state of the function-local `txAccountInfo` when the call
returns; the Go function drops this value on return. -/
def broadcastTx (alreadyExistsCode : Nat) (chain : ChainAccount)
    (outcome : BroadcastOutcome) : BroadcastResult :=
  let r0 := obtainAccountInfo chain NewAccountInfo
  let a1 := r0.1
  let seq := r0.2.1.2
  let queried := r0.2.2
  let respBad :=
    match outcome.resp with
    | some r => decide (r.code ≠ 0 ∧ r.code ≠ alreadyExistsCode)
    | none => false
  if respBad then
    { usedSequence := seq, queriedChain := queried, isError := true, finalInfo := a1 }
  else if outcome.err then
    { usedSequence := seq, queriedChain := queried, isError := true
      finalInfo := { a1 with shouldResetSequence := true } }
  else
    { usedSequence := seq, queriedChain := queried, isError := false
      finalInfo := { a1 with accountSequence := a1.accountSequence + 1 } }

/-- A run of consecutive `BroadcastTx` calls.  The Go code threads **no**
state between calls (each call builds its own `AccountInfo` and discards it),
so a run is just one `broadcastTx` per call, each seeing the chain state of
that moment. -/
def broadcastRun (alreadyExistsCode : Nat) (chains : List ChainAccount)
    (outcome : BroadcastOutcome) : List BroadcastResult :=
  chains.map (fun c => broadcastTx alreadyExistsCode c outcome)

/-! ## Parameter cache and jail cache (`oracle/param.go`, `oracle/jail.go`) -/

/-- On-chain oracle parameters mirrored by the feeder. -/
structure Params where
  whitelist : List String
  votePeriod : Nat
deriving DecidableEq, Repr

def paramsCacheInterval : Int := 200

structure ParamCache where
  params : Option Params
  lastUpdatedBlock : Int
deriving DecidableEq, Repr

/-- `ParamCache.Update`. -/
def ParamCache.update (_c : ParamCache) (currentBlockHeight : Int) (p : Params) :
    ParamCache :=
  { params := some p, lastUpdatedBlock := currentBlockHeight }

/-- `ParamCache.IsOutdated` of `oracle/param.go`: no params is outdated;
before block 200 the cache is fresh; a height below the last update is
outdated; otherwise outdated when more than 200 blocks have passed. -/
def ParamCache.isOutdated (c : ParamCache) (currentBlockHeight : Int) : Bool :=
  if c.params.isNone then true
  else if currentBlockHeight < paramsCacheInterval then false
  else if currentBlockHeight < c.lastUpdatedBlock then true
  else decide (currentBlockHeight - c.lastUpdatedBlock > paramsCacheInterval)

def jailCacheIntervalBlocks : Int := 50

structure JailCache where
  isJailed : Bool
  lastUpdatedBlock : Int
deriving DecidableEq, Repr

/-- `JailCache.Update`. -/
def JailCache.update (_c : JailCache) (currentBlockHeight : Int) (isJailed : Bool) :
    JailCache :=
  { isJailed := isJailed, lastUpdatedBlock := currentBlockHeight }

/-- `JailCache.IsOutdated` of `oracle/jail.go`: fresh below block 50,
otherwise outdated when more than 50 blocks have passed since the last
update.  Unlike the parameter cache it has no `currentHeight <
lastUpdatedBlock` branch. -/
def JailCache.isOutdated (c : JailCache) (currentBlockHeight : Int) : Bool :=
  if currentBlockHeight < jailCacheIntervalBlocks then false
  else decide (currentBlockHeight - c.lastUpdatedBlock > jailCacheIntervalBlocks)

/-! ## Height tracker (`HeightUpdater.subscribe`) -/

/-- The block-height channel has capacity 1
(`BlockHeightEvents: make(chan int64, 1)` in `NewOracleClient`). -/
def chBlockHeightCap : Nat := 1

/-- The tracker goroutine's state: its `LastHeight` copy and the channel
content (a queue of at most `chBlockHeightCap` heights). -/
structure TrackerState where
  lastHeight : Int
  channel : List Int
deriving DecidableEq, Repr

/-- One `EventNewBlockHeader` arrival in `HeightUpdater.subscribe`: heights
not above `LastHeight` are discarded; otherwise `LastHeight` is updated and
the height is sent only if the channel has room (`len(ch) < 1`), else it is
skipped. -/
def processHeader (s : TrackerState) (eventHeight : Int) : TrackerState :=
  if eventHeight > s.lastHeight then
    if s.channel.length < chBlockHeightCap then
      { lastHeight := eventHeight, channel := s.channel ++ [eventHeight] }
    else
      { lastHeight := eventHeight, channel := s.channel }
  else s

/-- The two events that touch the channel: a header arrival in the tracker,
and the voting loop receiving from the channel. -/
inductive HeightEvent where
  | header (height : Int)
  | tickRecv
deriving DecidableEq, Repr

def stepTracker (s : TrackerState) : HeightEvent → TrackerState
  | .header h => processHeader s h
  | .tickRecv => { s with channel := s.channel.tail }

def runTracker (s : TrackerState) (evts : List HeightEvent) : TrackerState :=
  evts.foldl stepTracker s

/-- The tracker starts with the channel just created, hence empty. -/
def initTracker (startHeight : Int) : TrackerState :=
  { lastHeight := startHeight, channel := [] }

/-! ## Client construction (`NewOracleClient`, `oracle/client/client.go`) -/

/-- The address-bearing fields of `OracleClient` set by `NewOracleClient`. -/
structure OracleClientAddrs where
  oracleAddr : List Nat
  oracleAddrString : String
  validatorAddrString : String
  feeGranterAddr : List Nat
deriving DecidableEq, Repr

/-- The address-parsing prefix of `NewOracleClient`.  `decode` stands for the
external `sdk.AccAddressFromBech32`, which returns a `nil` (empty) address
together with the error when parsing fails.  The oracle address's error is
returned; the fee granter's error is discarded
(`feegrantAddr, _ := sdk.AccAddressFromBech32(...)`), leaving the `nil`
address in the client.  The subsequent network steps (client context, chain
height, height tracker) do not touch these fields and are elided. -/
def NewOracleClientAddrs (decode : String → Except String (List Nat))
    (oracleAddrString validatorAddrString feeGranterAddrString : String) :
    Except String OracleClientAddrs :=
  match decode oracleAddrString with
  | .error e => .error e
  | .ok oracleAddr =>
    let feegrantAddr :=
      match decode feeGranterAddrString with
      | .error _ => []
      | .ok a => a
    .ok { oracleAddr := oracleAddr
          oracleAddrString := oracleAddrString
          validatorAddrString := validatorAddrString
          feeGranterAddr := feegrantAddr }

/-! ## Provider subscription contract

Modelled from the spec: the provider worker implementations are not in the
source tree (only their tests are).  Per the spec's subscription contract,
`SubscribeCurrencyPairs` fails with "currency pairs is empty" on zero pairs
and otherwise appends to the worker's subscription set. -/

structure CurrencyPair where
  base : String
  quote : String
deriving DecidableEq, Repr

structure ProviderWorker where
  subscribedPairs : List CurrencyPair
deriving DecidableEq, Repr

/-- Modelled from the spec: `SubscribeCurrencyPairs` shared by every provider
variant (the concrete provider files are missing from the source tree). -/
def subscribeCurrencyPairs (w : ProviderWorker) (cps : List CurrencyPair) :
    Except String ProviderWorker :=
  if cps.isEmpty then .error "currency pairs is empty"
  else .ok { subscribedPairs := w.subscribedPairs ++ cps }

/-! ## Aggregation arithmetic (`oracle/util.go`)

Modelled from the spec: `oracle/util.go` itself is not in the source tree,
only its test `oracle/util_test.go`.  The definitions follow the spec's
formulas (VWAP, population standard deviation with the ≥3-provider guard),
realized in the `LegacyDec` arithmetic the repository uses; they are pinned
against the exact 18-decimal expected values of `util_test.go`. -/

structure TickerPrice where
  price : Dec
  volume : Dec
deriving DecidableEq, Repr

/-- `provider → (base symbol → TickerPrice)` as an association list. -/
abbrev ProviderTickers := List (String × List (String × TickerPrice))

/-- Accumulate one ticker into per-base `(Σ price·volume, Σ volume)` sums. -/
def vwapAdd (acc : List (String × (Dec × Dec))) (base : String)
    (tp : TickerPrice) : List (String × (Dec × Dec)) :=
  match acc with
  | [] => [(base, (tp.price.mul tp.volume, tp.volume))]
  | (b, (w, v)) :: rest =>
    if b = base then (b, (w.add (tp.price.mul tp.volume), v.add tp.volume)) :: rest
    else (b, (w, v)) :: vwapAdd rest base tp

def vwapAccumulate (prices : ProviderTickers) : List (String × (Dec × Dec)) :=
  prices.foldl (fun acc pv => pv.2.foldl (fun a bp => vwapAdd a bp.1 bp.2) acc) []

/-- Modelled from the spec: `ComputeVWAP` — for each base, the sum of
`price·volume` over all providers divided by the total volume; bases with
zero total volume are dropped. -/
def ComputeVWAP (prices : ProviderTickers) : List (String × Dec) :=
  (vwapAccumulate prices).filterMap fun bwv =>
    if bwv.2.2 = Dec.zero then none else some (bwv.1, bwv.2.1.quo bwv.2.2)

/-- Accumulate one price into the per-base price list (first-seen base
order, prices appended in traversal order). -/
def gatherAdd (acc : List (String × List Dec)) (base : String) (p : Dec) :
    List (String × List Dec) :=
  match acc with
  | [] => [(base, [p])]
  | (b, ps) :: rest =>
    if b = base then (b, ps ++ [p]) :: rest
    else (b, ps) :: gatherAdd rest base p

def gatherPrices (prices : List (String × List (String × Dec))) :
    List (String × List Dec) :=
  prices.foldl (fun acc pv => pv.2.foldl (fun a bp => gatherAdd a bp.1 bp.2) acc) []

/-- Mean and population standard deviation of a price list in `LegacyDec`
arithmetic: mean and variance by truncating `QuoInt64`, square root by
`ApproxSqrt`; `none` when fewer than 3 prices ("Skip if standard deviation
would not be meaningful").  Returns `(deviation, mean)`. -/
def stdDevMean (ps : List Dec) : Option (Dec × Dec) :=
  if ps.length < 3 then none
  else
    let n : Int := ps.length
    let sum := ps.foldl Dec.add Dec.zero
    let mean := sum.quoInt n
    let varianceSum :=
      ps.foldl (fun s p => s.add ((p.sub mean).mul (p.sub mean))) Dec.zero
    let variance := varianceSum.quoInt n
    some (variance.approxSqrt, mean)

/-- Modelled from the spec: `StandardDeviation` — per-base `(deviation, mean)`
for every base with at least 3 provider prices. -/
def StandardDeviation (prices : List (String × List (String × Dec))) :
    List (String × (Dec × Dec)) :=
  (gatherPrices prices).filterMap fun bl => (stdDevMean bl.2).map (bl.1, ·)

/-! ## Deviation filters (`oracle/filter.go`)

Modelled from the spec: `oracle/filter.go` is not in the source tree, only
its test `oracle/filter_test.go`.  A provider's price for a base survives
exactly when no standard deviation is available for that base or the price
lies within `t·σ` of the mean, `t` being the per-base threshold override or
the 1.0 default. -/

def defaultDeviationThreshold : Dec := Dec.one

def thresholdFor (thresholds : List (String × Dec)) (base : String) : Dec :=
  (List.lookup base thresholds).getD defaultDeviationThreshold

/-- Whether a provider's price for `base` is kept by the deviation filter. -/
def keepPrice (sd : List (String × (Dec × Dec))) (thresholds : List (String × Dec))
    (base : String) (price : Dec) : Bool :=
  match List.lookup base sd with
  | none => true
  | some (dev, mean) => isBetween price mean (dev.mul (thresholdFor thresholds base))

/-- Modelled from the spec: `FilterTickerDeviations`.  Providers whose every
base got filtered out do not appear in the result (the Go code only inserts
providers for kept entries). -/
def FilterTickerDeviations (prices : ProviderTickers)
    (thresholds : List (String × Dec)) : ProviderTickers :=
  let priceMap := prices.map fun pv => (pv.1, pv.2.map fun bp => (bp.1, bp.2.price))
  let sd := StandardDeviation priceMap
  prices.filterMap fun pv =>
    let kept := pv.2.filter fun bp => keepPrice sd thresholds bp.1 bp.2.price
    if kept.isEmpty then none else some (pv.1, kept)

structure CandlePrice where
  price : Dec
  volume : Dec
  timeStamp : Int
deriving DecidableEq, Repr

/-- `provider → (base symbol → candle list)` as an association list. -/
abbrev ProviderCandles := List (String × List (String × List CandlePrice))

/-- Modelled from the spec: TVWAP of one base's candles at wall clock `now`
(seconds): keep candles within the 3-minute window, weight each candle's
price by `volume · (timestamp − (now − 180))`, divide by the total weight;
`none` when the total weight is zero. -/
def tvwap (now : Int) (candles : List CandlePrice) : Option Dec :=
  let window := now - 180
  let recent := candles.filter fun c =>
    decide (window ≤ c.timeStamp) && decide (c.timeStamp ≤ now)
  let weightOf := fun (c : CandlePrice) => c.volume.mul (Dec.ofInt (c.timeStamp - window))
  let weightedSum := recent.foldl (fun s c => s.add (c.price.mul (weightOf c))) Dec.zero
  let weightSum := recent.foldl (fun s c => s.add (weightOf c)) Dec.zero
  if weightSum = Dec.zero then none else some (weightedSum.quo weightSum)

/-- Modelled from the spec: `FilterCandleDeviations` — each provider's price
for a base is the TVWAP of its own candles; the deviation test is then the
same as for tickers, and surviving entries keep their candle lists. -/
def FilterCandleDeviations (now : Int) (candles : ProviderCandles)
    (thresholds : List (String × Dec)) : ProviderCandles :=
  let priceMap := candles.map fun pv =>
    (pv.1, pv.2.filterMap fun bc => (tvwap now bc.2).map (bc.1, ·))
  let sd := StandardDeviation priceMap
  candles.filterMap fun pv =>
    let kept := pv.2.filter fun bc =>
      keepPrice sd thresholds bc.1 ((tvwap now bc.2).getD Dec.zero)
    if kept.isEmpty then none else some (pv.1, kept)

/-! ## Vote payload serialization

Modelled from the spec: the voting loop's `oracle.go` is not in the source
tree; its tests (`TestGenerateExchangeRatesString`, `TestTickScenarios`,
`TestFilterPricesWithDenomList`) are.  Prices become `(chainDenom, price)`
coins, the whitelist filter keeps whitelisted denoms, and the payload joins
`price<denom>` entries in ascending denom order (byte order, as Go compares
strings), each price printed with all 18 fractional digits. -/

/-- Byte-wise lexicographic order on characters/strings, as Go's `<` on the
ASCII denom strings. -/
def strLtAux : List Char → List Char → Bool
  | [], [] => false
  | [], _ :: _ => true
  | _ :: _, [] => false
  | a :: as, b :: bs =>
    if a.toNat < b.toNat then true
    else if b.toNat < a.toNat then false
    else strLtAux as bs

def strLt (a b : String) : Bool := strLtAux a.data b.data

/-- Insert a coin into a denom-sorted coin list (insertion step of
`sdk.DecCoins.Sort`). -/
def insertCoin (c : String × Dec) : List (String × Dec) → List (String × Dec)
  | [] => [c]
  | d :: ds => if strLt c.1 d.1 then c :: d :: ds else d :: insertCoin c ds

/-- Sort coins ascending by denom. -/
def sortCoins (l : List (String × Dec)) : List (String × Dec) :=
  l.foldr insertCoin []

def padZeros (s : String) (n : Nat) : String :=
  String.mk (List.replicate (n - s.length) (Char.ofNat 48)) ++ s

/-- `LegacyDec.String`: sign, integer part, point, 18 fractional digits. -/
def decFormat (d : Dec) : String :=
  let n := d.val.natAbs
  (if d.val < 0 then "-" else "")
    ++ toString (n / decUnit) ++ "." ++ padZeros (toString (n % decUnit)) 18

/-- `GenerateExchangeRatesString`: sort by denom and join `price<denom>`
entries with commas. -/
def GenerateExchangeRatesString (coins : List (String × Dec)) : String :=
  String.intercalate "," ((sortCoins coins).map fun c => decFormat c.2 ++ c.1)

/-- `filterPricesByDenomList`: keep coins whose denom is in the whitelist. -/
def filterPricesByDenomList (coins : List (String × Dec)) (wl : List String) :
    List (String × Dec) :=
  coins.filter fun c => wl.contains c.1

/-- Computed `base → price` table turned into `(chainDenom, price)` coins via
the configured base → chainDenom mapping. -/
def toDenomCoins (mapping : List (String × String)) (prices : List (String × Dec)) :
    List (String × Dec) :=
  mapping.filterMap fun bm => (List.lookup bm.1 prices).map (bm.2, ·)

/-- The coin list underlying the broadcast payload: whitelisted denom coins in
ascending denom order. -/
def payloadCoins (mapping : List (String × String)) (prices : List (String × Dec))
    (wl : List String) : List (String × Dec) :=
  sortCoins (filterPricesByDenomList (toDenomCoins mapping prices) wl)

/-- The serialized exchange-rates payload broadcast in the vote message. -/
def exchangeRatesPayload (mapping : List (String × String))
    (prices : List (String × Dec)) (wl : List String) : String :=
  GenerateExchangeRatesString (filterPricesByDenomList (toDenomCoins mapping prices) wl)

/-! ## Voting tick

Modelled from the spec: the voting loop's `tick` is not in the source tree.
Per the spec: refuse non-positive heights; fail when jailed; skip (without
error) when the current vote period equals the previous one or the index in
the period is past half the period; otherwise broadcast the serialized
whitelisted prices. -/

structure OracleState where
  isJailed : Bool
  previousVotePeriod : Int
  validatorAddrString : String
  chainDenomMapping : List (String × String)
  prices : List (String × Dec)
  params : Params
deriving DecidableEq, Repr

inductive TickResult where
  | err (msg : String)
  | noBroadcast
  | broadcast (payload : String) (newPreviousVotePeriod : Int)
deriving DecidableEq, Repr

/-- Modelled from the spec: one voting-loop tick at block height `h` (cache
refreshes assumed fresh; the broadcast itself is represented by the
`broadcast` result carrying the payload and the vote period that would be
stored in `previousVotePeriod` on success). -/
def tick (o : OracleState) (blockHeight : Int) : TickResult :=
  if blockHeight < 1 then .err "expected positive block height"
  else if o.isJailed then .err ("validator " ++ o.validatorAddrString ++ " is jailed")
  else
    let vp : Int := (o.params.votePeriod : Int)
    let currentVotePeriod := blockHeight / vp
    let indexInVotePeriod := blockHeight % vp
    if currentVotePeriod = o.previousVotePeriod ∨ indexInVotePeriod > vp / 2 then
      .noBroadcast
    else
      .broadcast
        (exchangeRatesPayload o.chainDenomMapping o.prices o.params.whitelist)
        currentVotePeriod

/-! ## Helper lemmas: the byte order on strings -/

lemma strLtAux_asymm : ∀ as bs, strLtAux as bs = true → strLtAux bs as = false := by
  intro as
  induction as with
  | nil =>
    intro bs h
    cases bs with
    | nil => exact absurd h (by simp [strLtAux])
    | cons b bs => simp [strLtAux]
  | cons a as ih =>
    intro bs h
    cases bs with
    | nil => exact absurd h (by simp [strLtAux])
    | cons b bs =>
      rcases Nat.lt_trichotomy a.toNat b.toNat with hlt | heq | hgt
      · simp only [strLtAux]
        rw [if_neg (Nat.lt_asymm hlt), if_pos hlt]
      · have hab : ¬ a.toNat < b.toNat := by omega
        have hba : ¬ b.toNat < a.toNat := by omega
        simp only [strLtAux] at h ⊢
        rw [if_neg hab, if_neg hba] at h
        rw [if_neg hba, if_neg hab]
        exact ih bs h
      · simp only [strLtAux] at h
        rw [if_neg (Nat.lt_asymm hgt), if_pos hgt] at h
        exact absurd h (by simp)

lemma strLtAux_trans :
    ∀ as bs cs, strLtAux as bs = true → strLtAux bs cs = true → strLtAux as cs = true := by
  intro as
  induction as with
  | nil =>
    intro bs cs h1 h2
    cases bs with
    | nil => exact absurd h1 (by simp [strLtAux])
    | cons b bs =>
      cases cs with
      | nil => exact absurd h2 (by simp [strLtAux])
      | cons c cs => simp [strLtAux]
  | cons a as ih =>
    intro bs cs h1 h2
    cases bs with
    | nil => exact absurd h1 (by simp [strLtAux])
    | cons b bs =>
      cases cs with
      | nil => exact absurd h2 (by simp [strLtAux])
      | cons c cs =>
        rcases Nat.lt_trichotomy b.toNat a.toNat with hba | hba | hba
        · simp only [strLtAux] at h1
          rw [if_neg (Nat.lt_asymm hba), if_pos hba] at h1
          exact absurd h1 (by simp)
        · rcases Nat.lt_trichotomy c.toNat b.toNat with hcb | hcb | hcb
          · simp only [strLtAux] at h2
            rw [if_neg (Nat.lt_asymm hcb), if_pos hcb] at h2
            exact absurd h2 (by simp)
          · have hab : ¬ a.toNat < b.toNat := by omega
            have hbc : ¬ b.toNat < c.toNat := by omega
            have hac : ¬ a.toNat < c.toNat := by omega
            have hca : ¬ c.toNat < a.toNat := by omega
            simp only [strLtAux] at h1 h2 ⊢
            rw [if_neg hab, if_neg (by omega : ¬ b.toNat < a.toNat)] at h1
            rw [if_neg hbc, if_neg (by omega : ¬ c.toNat < b.toNat)] at h2
            rw [if_neg hac, if_neg hca]
            exact ih bs cs h1 h2
          · have hac : a.toNat < c.toNat := by omega
            simp only [strLtAux]
            rw [if_pos hac]
        · rcases Nat.lt_trichotomy c.toNat b.toNat with hcb | hcb | hcb
          · simp only [strLtAux] at h2
            rw [if_neg (Nat.lt_asymm hcb), if_pos hcb] at h2
            exact absurd h2 (by simp)
          · have hac : a.toNat < c.toNat := by omega
            simp only [strLtAux]
            rw [if_pos hac]
          · have hac : a.toNat < c.toNat := by omega
            simp only [strLtAux]
            rw [if_pos hac]

lemma strLtAux_eq_of_both_false :
    ∀ as bs, strLtAux as bs = false → strLtAux bs as = false → as = bs := by
  intro as
  induction as with
  | nil =>
    intro bs h1 _
    cases bs with
    | nil => rfl
    | cons b bs => exact absurd h1 (by simp [strLtAux])
  | cons a as ih =>
    intro bs h1 h2
    cases bs with
    | nil => exact absurd h2 (by simp [strLtAux])
    | cons b bs =>
      rcases Nat.lt_trichotomy a.toNat b.toNat with hlt | heq | hgt
      · simp only [strLtAux] at h1
        rw [if_pos hlt] at h1
        exact absurd h1 (by simp)
      · have hab : ¬ a.toNat < b.toNat := by omega
        have hba : ¬ b.toNat < a.toNat := by omega
        simp only [strLtAux] at h1 h2
        rw [if_neg hab, if_neg hba] at h1
        rw [if_neg hba, if_neg hab] at h2
        have hchar : a = b := Char.ext (UInt32.ext heq)
        rw [hchar, ih bs h1 h2]
      · simp only [strLtAux] at h2
        rw [if_pos hgt] at h2
        exact absurd h2 (by simp)

lemma strLt_asymm {a b : String} (h : strLt a b = true) : strLt b a = false :=
  strLtAux_asymm _ _ h

lemma strLt_trans {a b c : String} (h1 : strLt a b = true) (h2 : strLt b c = true) :
    strLt a c = true :=
  strLtAux_trans _ _ _ h1 h2

lemma strLt_total_of_ne {a b : String} (h : a ≠ b) :
    strLt a b = true ∨ strLt b a = true := by
  cases h1 : strLt a b with
  | true => exact Or.inl rfl
  | false =>
    cases h2 : strLt b a with
    | true => exact Or.inr rfl
    | false => exact absurd (String.ext (strLtAux_eq_of_both_false _ _ h1 h2)) h

/-! ## Helper lemmas: coin sorting -/

lemma mem_insertCoin (x c : String × Dec) :
    ∀ l, x ∈ insertCoin c l ↔ x = c ∨ x ∈ l := by
  intro l
  induction l with
  | nil => simp [insertCoin]
  | cons d ds ih =>
    simp only [insertCoin]
    split_ifs with h
    · simp [List.mem_cons]
    · simp only [List.mem_cons, ih]
      tauto

lemma insertCoin_perm (c : String × Dec) :
    ∀ l, (insertCoin c l).Perm (c :: l) := by
  intro l
  induction l with
  | nil => exact List.Perm.refl _
  | cons d ds ih =>
    simp only [insertCoin]
    split_ifs with h
    · exact List.Perm.refl _
    · exact (ih.cons d).trans (List.Perm.swap c d ds)

lemma sortCoins_perm (l : List (String × Dec)) : (sortCoins l).Perm l := by
  induction l with
  | nil => exact List.Perm.refl _
  | cons c cs ih => exact (insertCoin_perm c (sortCoins cs)).trans (ih.cons c)

/-- The non-strict key order maintained by insertion. -/
def coinKeyLe (a b : String × Dec) : Prop := strLt b.1 a.1 = false

lemma insertCoin_pairwise (c : String × Dec) :
    ∀ l, l.Pairwise coinKeyLe → (insertCoin c l).Pairwise coinKeyLe := by
  intro l
  induction l with
  | nil => intro _; simp [insertCoin, coinKeyLe]
  | cons d ds ih =>
    intro h
    rcases List.pairwise_cons.mp h with ⟨hd, hds⟩
    simp only [insertCoin]
    split_ifs with hc
    · refine List.pairwise_cons.mpr ⟨?_, h⟩
      intro x hx
      rcases List.mem_cons.mp hx with rfl | hxds
      · exact strLt_asymm hc
      · have hxd : strLt x.1 d.1 = false := hd x hxds
        cases hxc : strLt x.1 c.1 with
        | false => exact hxc
        | true => rw [strLt_trans hxc hc] at hxd; exact absurd hxd (by simp)
    · refine List.pairwise_cons.mpr ⟨?_, ih hds⟩
      intro x hx
      rcases (mem_insertCoin x c ds).mp hx with rfl | hxds
      · simpa [coinKeyLe] using hc
      · exact hd x hxds

lemma sortCoins_pairwise (l : List (String × Dec)) :
    (sortCoins l).Pairwise coinKeyLe := by
  induction l with
  | nil => simp [sortCoins]
  | cons c cs ih => exact insertCoin_pairwise c (sortCoins cs) ih

lemma pairwise_strict_of_nodup {l : List (String × Dec)}
    (hs : l.Pairwise coinKeyLe) (hn : (l.map Prod.fst).Nodup) :
    l.Pairwise (fun a b => strLt a.1 b.1 = true) := by
  have hne : l.Pairwise (fun a b => a.1 ≠ b.1) := List.pairwise_map.mp hn
  refine (hs.and hne).imp ?_
  rintro a b ⟨hle, hab⟩
  rcases strLt_total_of_ne hab with h | h
  · exact h
  · exact absurd hle (by simp [coinKeyLe, h])

/-! ## Helper lemmas: height tracker invariant -/

lemma stepTracker_channel_le (s : TrackerState) (e : HeightEvent)
    (h : s.channel.length ≤ 1) : (stepTracker s e).channel.length ≤ 1 := by
  cases e with
  | header hh =>
    simp only [stepTracker, processHeader, chBlockHeightCap]
    split_ifs with h1 h2
    · simp only [List.length_append, List.length_cons, List.length_nil]
      omega
    · exact h
    · exact h
  | tickRecv =>
    simp only [stepTracker]
    have := List.length_tail s.channel
    omega

lemma runTracker_channel_le :
    ∀ (evts : List HeightEvent) (s : TrackerState), s.channel.length ≤ 1 →
      (runTracker s evts).channel.length ≤ 1 := by
  intro evts
  induction evts with
  | nil => intro s h; exact h
  | cons e es ih =>
    intro s h
    exact ih (stepTracker s e) (stepTracker_channel_le s e h)

/-! ## Helper lemmas: VWAP over a single base -/

lemma dec_zero_add (x : Dec) : Dec.zero.add x = x := by
  simp [Dec.add, Dec.zero]

lemma vwapFold_single (base : String) :
    ∀ (tps : List TickerPrice) (w v : Dec),
      tps.foldl (fun a tp => vwapAdd a base tp) [(base, (w, v))] =
        [(base, (tps.foldl (fun s tp => s.add (tp.price.mul tp.volume)) w,
                 tps.foldl (fun s tp => s.add tp.volume) v))] := by
  intro tps
  induction tps with
  | nil => intro w v; rfl
  | cons tp rest ih =>
    intro w v
    simp only [List.foldl_cons, vwapAdd, if_pos rfl]
    exact ih _ _

lemma vwapAccumulate_single (pn base : String) (tps : List TickerPrice) :
    vwapAccumulate (tps.map fun tp => (pn, [(base, tp)])) =
      tps.foldl (fun acc tp => vwapAdd acc base tp) [] := by
  simp [vwapAccumulate, List.foldl_map]

/-! ## Concrete fixtures (the repository's own test vectors) -/

/-- A successful broadcast: the node answers with response code 0 and no
transport error. -/
def okBroadcast : BroadcastOutcome := { resp := some { code := 0 }, err := false }

/-- A broadcast whose node response carries non-zero code 7 (for instance
`ErrInvalidAddress`), with no transport-level error. -/
def code7Broadcast : BroadcastOutcome := { resp := some { code := 7 }, err := false }

/-- The ABCI code of `sdkerrors.ErrAlreadyExists` used by `BroadcastTx`; an
external cosmos-sdk constant, passed as a parameter to `broadcastTx` so no
theorem depends on its exact value beyond being distinct from the codes it is
compared against. -/
def errAlreadyExistsABCICode : Nat := 19

/-- The three-provider ticker table of `TestComputeVWAP` ("non empty prices"):
ATOM at 28.21 / 28.2687 / 28.1687 with volumes 2749102.78 /
178277.53314385 / 4749102.53314385, plus the UMEE and KII quotes. -/
def vwapTestTickers : ProviderTickers :=
  [("binance",
     [("ATOM", { price := ⟨28210000000000000000⟩, volume := ⟨2749102780000000000000000⟩ }),
      ("UMEE", { price := ⟨1130000000000000000⟩, volume := ⟨249102380000000000000000⟩ }),
      ("KII", { price := ⟨64870000000000000000⟩, volume := ⟨7854934690000000000000000⟩ })]),
   ("kraken",
     [("ATOM", { price := ⟨28268700000000000000⟩, volume := ⟨178277533143850000000000⟩ }),
      ("KII", { price := ⟨64878530000000000000⟩, volume := ⟨458917463535770000000000⟩ })]),
   ("FOO",
     [("ATOM", { price := ⟨28168700000000000000⟩, volume := ⟨4749102533143850000000000⟩ })])]

/-- ATOM ticker of the deviation-filter tests: price 29.93, volume
1994674.34. -/
def atomTicker : TickerPrice :=
  { price := ⟨29930000000000000000⟩, volume := ⟨1994674340000000000000000⟩ }

/-- The outlier ticker of the deviation-filter tests: price 27.1, same
volume. -/
def outlierTicker : TickerPrice :=
  { price := ⟨27100000000000000000⟩, volume := ⟨1994674340000000000000000⟩ }

/-- `TestSuccessFilterTickerDeviations`: binance, huobi and kraken report
29.93, coinbase reports 27.1. -/
def deviationTestTickers : ProviderTickers :=
  [("binance", [("ATOM", atomTicker)]),
   ("huobi", [("ATOM", atomTicker)]),
   ("kraken", [("ATOM", atomTicker)]),
   ("coinbase", [("ATOM", outlierTicker)])]

/-- Wall clock used for the candle fixtures. -/
def candleTestNow : Int := 1000000

/-- A single candle one minute old. -/
def candleAt (p : TickerPrice) : List CandlePrice :=
  [{ price := p.price, volume := p.volume, timeStamp := candleTestNow - 60 }]

/-- `TestSuccessFilterCandleDeviations`: same prices as the ticker variant,
one candle per provider, timestamped one minute before `candleTestNow`. -/
def deviationTestCandles : ProviderCandles :=
  [("binance", [("ATOM", candleAt atomTicker)]),
   ("huobi", [("ATOM", candleAt atomTicker)]),
   ("kraken", [("ATOM", candleAt atomTicker)]),
   ("coinbase", [("ATOM", candleAt outlierTicker)])]

/-- The 2.0 per-denom deviation override of the filter tests. -/
def atomThreshold2 : List (String × Dec) := [("ATOM", Dec.ofInt 2)]

def whitelistTestMapping : List (String × String) :=
  [("USDT", "uusdt"), ("BTC", "ubtc"), ("OTHER", "uother")]

def whitelistTestPrices : List (String × Dec) :=
  [("USDT", ⟨1100000000000000000⟩), ("BTC", ⟨2200000000000000000⟩),
   ("OTHER", ⟨3300000000000000000⟩)]

def whitelistTestWhitelist : List String := ["uusdt", "ubtc"]

/-- The whitelist scenario of `TestTickScenarios`: pairs USDT→uusdt, BTC→ubtc,
OTHER→uother priced 1.1 / 2.2 / 3.3, whitelist {uusdt, ubtc}, vote period 1,
previous vote period 0. -/
def whitelistTickState : OracleState :=
  { isJailed := false
    previousVotePeriod := 0
    validatorAddrString := "kiivaloper1test"
    chainDenomMapping := whitelistTestMapping
    prices := whitelistTestPrices
    params := { whitelist := whitelistTestWhitelist, votePeriod := 1 } }

/-- The same-vote-period scenario: vote period 2, previous vote period 1. -/
def sameVotePeriodState : OracleState :=
  { isJailed := false
    previousVotePeriod := 1
    validatorAddrString := "kiivaloper1test"
    chainDenomMapping := whitelistTestMapping
    prices := whitelistTestPrices
    params := { whitelist := whitelistTestWhitelist, votePeriod := 2 } }

/-- A decoder standing in for `sdk.AccAddressFromBech32` in witnesses: accepts
exactly one address string. -/
def witnessDecode (s : String) : Except String (List Nat) :=
  if s = "kii1good" then .ok [1, 2, 3] else .error "decoding bech32 failed"

/-! ## C1 -/

/-- C1: the claim says the chain client's locally maintained account sequence
persists across broadcasts, reaches `s + N` after `N` successes, and is
re-queried from the chain only on cold start or after `shouldResetSequence`.
The code contradicts this (and its own comments): `BroadcastTx` builds a
fresh `AccountInfo` via `NewAccountInfo()` on every call, so the chain is
queried on **every** broadcast and the post-success increment is discarded
when the call returns.  Conjunct 1: every call queries the chain (the fresh
info always has sequence 0).  Conjunct 2: a successful call signs with the
chain-reported sequence and increments only its own local copy.  Conjunct 3:
two consecutive successful broadcasts with the chain still reporting
sequence 5 both sign with 5 — not 5 then 6 as the claim requires. -/
theorem client_sequence_not_persistent :
    (∀ (code : Nat) (chain : ChainAccount) (outcome : BroadcastOutcome),
        (broadcastTx code chain outcome).queriedChain = true) ∧
    (∀ (code : Nat) (chain : ChainAccount),
        (broadcastTx code chain okBroadcast).usedSequence = chain.sequence ∧
        (broadcastTx code chain okBroadcast).isError = false ∧
        (broadcastTx code chain okBroadcast).finalInfo.accountSequence
          = chain.sequence + 1) ∧
    (broadcastRun errAlreadyExistsABCICode
        [{ accountNumber := 7, sequence := 5 }, { accountNumber := 7, sequence := 5 }]
        okBroadcast).map BroadcastResult.usedSequence = [5, 5] := by
  refine ⟨?_, ?_, by decide⟩
  · intro code chain outcome
    simp only [broadcastTx, obtainAccountInfo, NewAccountInfo]
    simp only [true_or, if_true]
    split_ifs <;> rfl
  · intro code chain
    simp [broadcastTx, obtainAccountInfo, NewAccountInfo, okBroadcast]

/-! ## C2 -/

/-- C2 counterexample: with node response code 7 (non-zero), `BroadcastTx`
does return an error and does not increment the sequence, but
`ShouldResetSequence` is **not** set to true — the non-zero-code branch
returns before the flag assignment — contradicting the claim that a non-zero
response code is treated identically to an error for sequencing purposes. -/
theorem broadcastTx_nonzero_code_counterexample :
    (broadcastTx errAlreadyExistsABCICode { accountNumber := 1, sequence := 5 }
        code7Broadcast).isError = true ∧
    (broadcastTx errAlreadyExistsABCICode { accountNumber := 1, sequence := 5 }
        code7Broadcast).finalInfo.accountSequence = 5 ∧
    (broadcastTx errAlreadyExistsABCICode { accountNumber := 1, sequence := 5 }
        code7Broadcast).finalInfo.shouldResetSequence = false := by
  decide

/-- C2 amended: a node response whose code is non-zero and different from the
`ErrAlreadyExists` ABCI code makes `BroadcastTx` return an error without
incrementing the local sequence, but `ShouldResetSequence` stays false (it is
set only on a transport-level error); a response code equal to the
`ErrAlreadyExists` code is treated as a success and increments the
sequence. -/
theorem broadcastTx_nonzero_code_behavior (ae c : Nat) (chain : ChainAccount)
    (e : Bool) (hc0 : c ≠ 0) (hcae : c ≠ ae) :
    (broadcastTx ae chain { resp := some { code := c }, err := e }).isError = true ∧
    (broadcastTx ae chain { resp := some { code := c }, err := e
        }).finalInfo.accountSequence = chain.sequence ∧
    (broadcastTx ae chain { resp := some { code := c }, err := e
        }).finalInfo.shouldResetSequence = false ∧
    (∀ chain2 : ChainAccount,
        (broadcastTx ae chain2 { resp := some { code := ae }, err := false
            }).isError = false ∧
        (broadcastTx ae chain2 { resp := some { code := ae }, err := false
            }).finalInfo.accountSequence = chain2.sequence + 1) := by
  refine ⟨?_, ?_, ?_, ?_⟩ <;>
    simp [broadcastTx, obtainAccountInfo, NewAccountInfo, hc0, hcae]

theorem broadcastTx_nonzero_code_behavior_witness :
    (broadcastTx 19 { accountNumber := 1, sequence := 5 }
        { resp := some { code := 7 }, err := false }).isError = true ∧
    (broadcastTx 19 { accountNumber := 1, sequence := 5 }
        { resp := some { code := 7 }, err := false
        }).finalInfo.shouldResetSequence = false := by
  have h := broadcastTx_nonzero_code_behavior 19 7 { accountNumber := 1, sequence := 5 }
    false (by decide) (by decide)
  exact ⟨h.1, h.2.2.1⟩

/-! ## C3 -/

/-- C3 counterexample: with `currentHeight < lastUpdatedBlock`, the jail cache
reports itself fresh (it has no reorg branch at all: `60 - 100 > 50` is
false), and the parameter cache reports itself fresh too while
`currentHeight` is inside the initial 200-block warm-up — both contradicting
the claim that `IsOutdated` returns true whenever
`currentHeight < lastUpdatedBlock`. -/
theorem cache_reorg_counterexample :
    JailCache.isOutdated { isJailed := false, lastUpdatedBlock := 100 } 60 = false ∧
    ParamCache.isOutdated
      { params := some { whitelist := [], votePeriod := 1 }, lastUpdatedBlock := 150 }
      100 = false := by
  decide

/-- C3 amended: the reorg rule holds for the parameter cache only — when its
params are present and `currentHeight` is past the 200-block warm-up, a
height below `lastUpdatedBlock` makes `IsOutdated` true.  The jail cache has
no reorg check: whenever `currentHeight < lastUpdatedBlock`, its `IsOutdated`
returns false. -/
theorem cache_reorg_behavior (c : ParamCache) (j : JailCache) (h hj : Int)
    (hp : c.params.isSome = true) (hwarm : paramsCacheInterval ≤ h)
    (hreorg : h < c.lastUpdatedBlock) (hjreorg : hj < j.lastUpdatedBlock) :
    c.isOutdated h = true ∧ j.isOutdated hj = false := by
  constructor
  · obtain ⟨p, hcp⟩ := Option.isSome_iff_exists.mp hp
    have hwarm2 : (200 : Int) ≤ h := hwarm
    unfold ParamCache.isOutdated
    rw [hcp]
    rw [if_neg (by simp)]
    rw [if_neg (by simp only [paramsCacheInterval]; omega)]
    rw [if_pos hreorg]
  · simp only [JailCache.isOutdated, jailCacheIntervalBlocks] at *
    split_ifs with h1
    · rfl
    · simp only [decide_eq_false_iff_not]
      omega

theorem cache_reorg_behavior_witness :
    ParamCache.isOutdated
      { params := some { whitelist := [], votePeriod := 1 }, lastUpdatedBlock := 250 }
      220 = true ∧
    JailCache.isOutdated { isJailed := false, lastUpdatedBlock := 100 } 60 = false :=
  cache_reorg_behavior
    { params := some { whitelist := [], votePeriod := 1 }, lastUpdatedBlock := 250 }
    { isJailed := false, lastUpdatedBlock := 100 } 220 60
    (by decide) (by decide) (by decide) (by decide)

/-! ## C4 -/

/-- C4: the broadcast payload's coins are exactly the computed prices whose
chain denom is whitelisted (conjunct 1), listed in strictly ascending denom
order when the computed denoms are distinct (conjunct 2); the payload string
joins them as `price<denom>` with commas (conjunct 3); and on the whitelist
scenario of `TestTickScenarios` — pairs USDT→uusdt, BTC→ubtc, OTHER→uother
priced 1.1/2.2/3.3, whitelist {uusdt, ubtc} — the tick broadcasts exactly
`"2.200000000000000000ubtc,1.100000000000000000uusdt"` (conjunct 4). -/
theorem vote_payload_whitelist_sorted :
    (∀ (mapping : List (String × String)) (prices : List (String × Dec))
        (wl : List String) (c : String × Dec),
        c ∈ payloadCoins mapping prices wl ↔
          c ∈ toDenomCoins mapping prices ∧ wl.contains c.1 = true) ∧
    (∀ (mapping : List (String × String)) (prices : List (String × Dec))
        (wl : List String),
        ((toDenomCoins mapping prices).map Prod.fst).Nodup →
          (payloadCoins mapping prices wl).Pairwise (fun a b => strLt a.1 b.1 = true)) ∧
    (∀ (mapping : List (String × String)) (prices : List (String × Dec))
        (wl : List String),
        exchangeRatesPayload mapping prices wl =
          String.intercalate ","
            ((payloadCoins mapping prices wl).map fun c => decFormat c.2 ++ c.1)) ∧
    tick whitelistTickState 1 =
      .broadcast "2.200000000000000000ubtc,1.100000000000000000uusdt" 1 := by
  refine ⟨?_, ?_, ?_, by decide⟩
  · intro mapping prices wl c
    rw [payloadCoins, (sortCoins_perm _).mem_iff]
    simp [filterPricesByDenomList, List.mem_filter]
  · intro mapping prices wl hnd
    have hfil :
        ((filterPricesByDenomList (toDenomCoins mapping prices) wl).map Prod.fst).Nodup :=
      List.Nodup.sublist (List.Sublist.map Prod.fst (List.filter_sublist _)) hnd
    have hperm :
        ((filterPricesByDenomList (toDenomCoins mapping prices) wl).map Prod.fst).Perm
          ((payloadCoins mapping prices wl).map Prod.fst) :=
      ((sortCoins_perm _).map Prod.fst).symm
    exact pairwise_strict_of_nodup (sortCoins_pairwise _) (hperm.nodup hfil)
  · intro mapping prices wl
    rfl

theorem vote_payload_whitelist_sorted_witness :
    (payloadCoins whitelistTestMapping whitelistTestPrices
        whitelistTestWhitelist).Pairwise (fun a b => strLt a.1 b.1 = true) ∧
    tick whitelistTickState 1 =
      .broadcast "2.200000000000000000ubtc,1.100000000000000000uusdt" 1 :=
  ⟨vote_payload_whitelist_sorted.2.1 whitelistTestMapping whitelistTestPrices
      whitelistTestWhitelist (by decide),
   vote_payload_whitelist_sorted.2.2.2⟩

/-! ## C5 -/

/-- C5: a tick at positive height `h` on a non-jailed validator whose current
vote period `h / votePeriod` equals `previousVotePeriod` returns without
broadcasting and without error; in particular with vote period 2, previous
vote period 1 and height 3 (see the witness). -/
theorem tick_same_vote_period_skip (o : OracleState) (h : Int)
    (hpos : 0 < h) (hjail : o.isJailed = false)
    (_hvp : 0 < (o.params.votePeriod : Int))
    (hperiod : h / (o.params.votePeriod : Int) = o.previousVotePeriod) :
    tick o h = .noBroadcast := by
  unfold tick
  rw [if_neg (by omega), hjail]
  rw [if_neg (by simp)]
  rw [if_pos (Or.inl hperiod)]

theorem tick_same_vote_period_skip_witness :
    tick sameVotePeriodState 3 = .noBroadcast :=
  tick_same_vote_period_skip sameVotePeriodState 3 (by decide) (by decide)
    (by decide) (by decide)

/-! ## C6 -/

/-- C6: the deviation filters keep a provider's price for a base exactly when
no standard deviation is available for that base (conjunct 2) or the price
lies within `[mean − t·σ, mean + t·σ]` with `t` the per-denom threshold
(conjunct 1); on the repository's filter test — four providers at 29.93,
29.93, 29.93, 27.1 with equal volumes — the 27.1 provider (coinbase) is
dropped under the default threshold and kept under the 2.0 override, for
candles and tickers alike (conjuncts 3–6). -/
theorem filter_deviation_band :
    (∀ (sd : List (String × (Dec × Dec))) (th : List (String × Dec))
        (base : String) (p dev mean : Dec),
        List.lookup base sd = some (dev, mean) →
          (keepPrice sd th base p = true ↔
            ((mean.sub (dev.mul (thresholdFor th base))).val ≤ p.val ∧
              p.val ≤ (mean.add (dev.mul (thresholdFor th base))).val))) ∧
    (∀ (sd : List (String × (Dec × Dec))) (th : List (String × Dec))
        (base : String) (p : Dec),
        List.lookup base sd = none → keepPrice sd th base p = true) ∧
    (FilterTickerDeviations deviationTestTickers []).map Prod.fst =
      ["binance", "huobi", "kraken"] ∧
    (FilterTickerDeviations deviationTestTickers atomThreshold2).map Prod.fst =
      ["binance", "huobi", "kraken", "coinbase"] ∧
    (FilterCandleDeviations candleTestNow deviationTestCandles []).map Prod.fst =
      ["binance", "huobi", "kraken"] ∧
    (FilterCandleDeviations candleTestNow deviationTestCandles
        atomThreshold2).map Prod.fst =
      ["binance", "huobi", "kraken", "coinbase"] := by
  refine ⟨?_, ?_, by decide, by decide, by decide, by decide⟩
  · intro sd th base p dev mean hl
    simp [keepPrice, hl, isBetween, Dec.le]
  · intro sd th base p hl
    simp [keepPrice, hl]

theorem filter_deviation_band_witness :
    (keepPrice [("ATOM", (⟨1000000000000000000⟩, ⟨30000000000000000000⟩))] []
        "ATOM" ⟨29500000000000000000⟩ = true ↔
      (((⟨30000000000000000000⟩ : Dec).sub
          ((⟨1000000000000000000⟩ : Dec).mul (thresholdFor [] "ATOM"))).val ≤
          (⟨29500000000000000000⟩ : Dec).val ∧
        (⟨29500000000000000000⟩ : Dec).val ≤
          ((⟨30000000000000000000⟩ : Dec).add
            ((⟨1000000000000000000⟩ : Dec).mul (thresholdFor [] "ATOM"))).val)) :=
  filter_deviation_band.1
    [("ATOM", (⟨1000000000000000000⟩, ⟨30000000000000000000⟩))] [] "ATOM"
    ⟨29500000000000000000⟩ ⟨1000000000000000000⟩ ⟨30000000000000000000⟩ rfl

/-! ## C7 -/

/-- C7: `ComputeVWAP` returns, per base, the volume-weighted mean of the
providers' ticker prices — `Σ price·volume / Σ volume` in the 18-decimal
arithmetic (conjunct 1, for any number of providers quoting one base); on
the `TestComputeVWAP` table the ATOM result is exactly
28.185812745610043621 (and UMEE and KII match the test's expectations
likewise). -/
theorem computeVWAP_weighted_mean :
    (∀ (pn base : String) (tps : List TickerPrice),
        ComputeVWAP (tps.map fun tp => (pn, [(base, tp)])) =
          (if tps.foldl (fun s tp => s.add tp.volume) Dec.zero = Dec.zero then []
           else
             [(base,
               (tps.foldl (fun s tp => s.add (tp.price.mul tp.volume)) Dec.zero).quo
                 (tps.foldl (fun s tp => s.add tp.volume) Dec.zero))])) ∧
    ComputeVWAP vwapTestTickers =
      [("ATOM", ⟨28185812745610043621⟩), ("UMEE", ⟨1130000000000000000⟩),
       ("KII", ⟨64870470848638112395⟩)] := by
  refine ⟨?_, by decide⟩
  intro pn base tps
  cases tps with
  | nil => simp [ComputeVWAP, vwapAccumulate]
  | cons tp rest =>
    rw [ComputeVWAP, vwapAccumulate_single, List.foldl_cons]
    have hstep : vwapAdd [] base tp = [(base, (tp.price.mul tp.volume, tp.volume))] := rfl
    rw [hstep, vwapFold_single]
    simp only [List.foldl_cons, dec_zero_add]
    by_cases hz : rest.foldl (fun s tp => s.add tp.volume) tp.volume = Dec.zero
    · rw [if_pos hz]
      simp [List.filterMap_cons, hz]
    · rw [if_neg hz]
      simp [List.filterMap_cons, hz]

/-! ## C8 -/

/-- C8: the block-height channel holds at most one pending height along any
interleaving of header arrivals and voting-loop receives (conjunct 1), and
the tracker handles one header exactly as specified: a height not above
`lastHeight` is discarded (conjunct 2), a newer height is enqueued when the
slot is empty (conjunct 3) and dropped when it is full (conjunct 4). -/
theorem height_channel_at_most_one :
    (∀ (startHeight : Int) (evts : List HeightEvent),
        (runTracker (initTracker startHeight) evts).channel.length ≤ 1) ∧
    (∀ (s : TrackerState) (h : Int), h ≤ s.lastHeight → processHeader s h = s) ∧
    (∀ (s : TrackerState) (h : Int), s.lastHeight < h → s.channel = [] →
        processHeader s h = { lastHeight := h, channel := [h] }) ∧
    (∀ (s : TrackerState) (h : Int), s.lastHeight < h → s.channel ≠ [] →
        processHeader s h = { lastHeight := h, channel := s.channel }) := by
  refine ⟨?_, ?_, ?_, ?_⟩
  · intro startHeight evts
    exact runTracker_channel_le evts _ (by simp [initTracker])
  · intro s h hle
    unfold processHeader
    rw [if_neg (not_lt.mpr hle)]
  · intro s h hlt hch
    unfold processHeader
    rw [if_pos hlt, if_pos (by simp [hch, chBlockHeightCap])]
    simp [hch]
  · intro s h hlt hch
    unfold processHeader
    have hlen : 0 < s.channel.length := List.length_pos.mpr hch
    rw [if_pos hlt, if_neg (by simp only [chBlockHeightCap]; omega)]

theorem height_channel_at_most_one_witness :
    (runTracker (initTracker 0) [.header 1, .header 2, .tickRecv, .header 3]).channel.length ≤ 1 ∧
    processHeader { lastHeight := 5, channel := [] } 3 =
      { lastHeight := 5, channel := [] } ∧
    processHeader { lastHeight := 5, channel := [] } 6 =
      { lastHeight := 6, channel := [6] } ∧
    processHeader { lastHeight := 5, channel := [4] } 6 =
      { lastHeight := 6, channel := [4] } :=
  ⟨height_channel_at_most_one.1 0 [.header 1, .header 2, .tickRecv, .header 3],
   height_channel_at_most_one.2.1 { lastHeight := 5, channel := [] } 3 (by decide),
   height_channel_at_most_one.2.2.1 { lastHeight := 5, channel := [] } 6
     (by decide) rfl,
   height_channel_at_most_one.2.2.2 { lastHeight := 5, channel := [4] } 6
     (by decide) (by decide)⟩

/-! ## C9 -/

/-- C9: calling `SubscribeCurrencyPairs` with zero currency pairs fails with
the error "currency pairs is empty", whatever the worker's current
subscription state. -/
theorem subscribe_empty_pairs_error (w : ProviderWorker) :
    subscribeCurrencyPairs w [] = .error "currency pairs is empty" := rfl

/-! ## C10 -/

/-- C10: in `NewOracleClient`, a non-decodable oracle address string fails
construction with the decoder's error (conjunct 1), while a non-decodable
fee-granter address string is silently accepted: the error is discarded and
the client is built with the empty (`nil`) fee-granter address
(conjunct 2). -/
theorem feeGranter_error_discarded :
    (∀ (decode : String → Except String (List Nat)) (o v f e : String),
        decode o = .error e → NewOracleClientAddrs decode o v f = .error e) ∧
    (∀ (decode : String → Except String (List Nat)) (o v f e : String)
        (a : List Nat),
        decode o = .ok a → decode f = .error e →
          NewOracleClientAddrs decode o v f =
            .ok { oracleAddr := a, oracleAddrString := o,
                  validatorAddrString := v, feeGranterAddr := [] }) := by
  constructor
  · intro decode o v f e h
    simp [NewOracleClientAddrs, h]
  · intro decode o v f e a h1 h2
    simp [NewOracleClientAddrs, h1, h2]

theorem feeGranter_error_discarded_witness :
    NewOracleClientAddrs witnessDecode "kii1bad" "kiivaloper1x" "kii1good" =
      .error "decoding bech32 failed" ∧
    NewOracleClientAddrs witnessDecode "kii1good" "kiivaloper1x" "kii1badfee" =
      .ok { oracleAddr := [1, 2, 3], oracleAddrString := "kii1good",
            validatorAddrString := "kiivaloper1x", feeGranterAddr := [] } :=
  ⟨feeGranter_error_discarded.1 witnessDecode "kii1bad" "kiivaloper1x" "kii1good"
      "decoding bech32 failed" rfl,
   feeGranter_error_discarded.2 witnessDecode "kii1good" "kiivaloper1x"
      "kii1badfee" "decoding bech32 failed" [1, 2, 3] rfl rfl⟩

end PriceFeeder
